import Mathlib

/-!
Verification of the rash tensor library (src/rash/tensorMeta.hpp, src/rash/tensor.hpp).

A shallow embedding: `TensorMeta` mirrors the C++ class of the same name with
`rawData : List Rat` (doubles modelled as rationals) and `tensorSize : List Nat`.
Thrown C++ exceptions are modelled as `Except String`.  Out-of-bounds vector reads
(undefined behaviour in C++) are modelled with `List.getD _ _ 0`; every theorem about
a well-indexed execution stays inside the in-bounds region, and theorems about the
ill-indexed executions only ever talk about shapes, which do not depend on the
defaulted values.
-/

namespace Rash

/-- Mirrors C++ `class TensorMeta`: a flat row-major buffer plus a shape. -/
structure TensorMeta where
  rawData : List ℚ
  tensorSize : List Nat
deriving DecidableEq, Repr

namespace TensorMeta

/-- `ndim()` : number of dimensions. -/
def ndim (t : TensorMeta) : Nat := t.tensorSize.length

/-- Models the `TensorMeta(std::vector<double> data, std::vector<int> size)` constructor,
including its `rawData.size() != numel` check (`std::runtime_error`). -/
def make (data : List ℚ) (size : List Nat) : Except String TensorMeta :=
  if data.length = size.prod then .ok ⟨data, size⟩
  else .error "Data size mismatch with tensorSize!"

/-- Models the scalar constructor `TensorMeta(double data)`. -/
def scalar (x : ℚ) : TensorMeta := ⟨[x], [1]⟩

/-- Models the shape-only constructor `TensorMeta(std::vector<int> size)`,
which zero-fills `numel` elements. -/
def zeros (size : List Nat) : TensorMeta := ⟨List.replicate size.prod 0, size⟩

/-- Models `updateAll(double value)`: assigns `numel` copies of `value`. -/
def updateAll (t : TensorMeta) (v : ℚ) : TensorMeta :=
  ⟨List.replicate t.tensorSize.prod v, t.tensorSize⟩

/-- One aligned dimension pair of `fetchBroadcastedSize` (the body of its
`idx < n && idx < m` branch, with both its `runtime_error` and `length_error`
throws collapsed into `Except.error`). -/
def bcDim (a b : Nat) : Except String Nat :=
  if a = 0 ∨ b = 0 then .error "Size mismatch in Broadcasting"
  else if a = b then .ok a
  else if a = 1 then .ok b
  else if b = 1 then .ok a
  else .error "Size mismatch in Broadcasting"

/-- The `while (idx < n || idx < m)` loop of `fetchBroadcastedSize`, acting on the
already-reversed shapes and producing `finSize` before its final reversal. -/
def bcRev : List Nat → List Nat → Except String (List Nat)
  | [], [] => .ok []
  | [], b :: bs => (bcRev [] bs).map (fun r => b :: r)
  | a :: as, [] => (bcRev as []).map (fun r => a :: r)
  | a :: as, b :: bs => do
      let d ← bcDim a b
      let r ← bcRev as bs
      .ok (d :: r)

/-- Mirrors `static std::vector<int> fetchBroadcastedSize(sz1, sz2)`. -/
def fetchBroadcastedSize (sz1 sz2 : List Nat) : Except String (List Nat) :=
  if sz1 = [] ∨ sz2 = [] then .error "Tensor should have atleats a dimension!"
  else (bcRev sz1.reverse sz2.reverse).map List.reverse

/-- Mirrors `static std::vector<int> fetchStride(shape)`:
`stride[idx]` is the product of all dimensions after `idx`. -/
def fetchStride : List Nat → List Nat
  | [] => []
  | _ :: rest => rest.prod :: fetchStride rest

/-- Mirrors `static int getIndex(indices, shape, stride)` with its
`dimOffset = indices.size() - shape.size()` alignment and the
`shape[i] == 1 ? 0 : indices[i + dimOffset] * stride[i]` terms. -/
def getIndex (indices shape stride : List Nat) : Nat :=
  (List.zip (indices.drop (indices.length - shape.length)) (List.zip shape stride)).foldl
    (fun acc p => acc + (if p.2.1 = 1 then 0 else p.1 * p.2.2)) 0

/-- The index-update loop shared by `broadcast`, `matmulBroadcast` and `permute`
(`for dim = last..0: ++indices[dim]; if < shape[dim] break; else 0`), expressed on
the reversed lists. -/
def incIndicesRev : List Nat → List Nat → List Nat
  | [], _ => []
  | is, [] => is
  | i :: is, d :: ds => if i + 1 < d then (i + 1) :: is else 0 :: incIndicesRev is ds

/-- Last-dimension-first odometer increment of a multi-index, as in the C++ loops. -/
def incIndices (indices shape : List Nat) : List Nat :=
  (incIndicesRev indices.reverse shape.reverse).reverse

/-- The element loop of `static TensorMeta broadcast(dat1, dat2, op)`:
for each flat output index, read both operands through `getIndex` and apply `op`.
The loop counter is structural fuel equal to `out.numel`. -/
def broadcastLoop (raw1 : List ℚ) (sz1 st1 : List Nat) (raw2 : List ℚ) (sz2 st2 : List Nat)
    (outShape : List Nat) (op : ℚ → ℚ → ℚ) :
    Nat → Nat → List Nat → List ℚ → List ℚ
  | 0, _, _, out => out
  | steps + 1, idx, indices, out =>
      let v := op (raw1.getD (getIndex indices sz1 st1) 0) (raw2.getD (getIndex indices sz2 st2) 0)
      broadcastLoop raw1 sz1 st1 raw2 sz2 st2 outShape op
        steps (idx + 1) (incIndices indices outShape) (out.set idx v)

/-- Mirrors `static TensorMeta broadcast(dat1, dat2, op)`. -/
def broadcast (dat1 dat2 : TensorMeta) (op : ℚ → ℚ → ℚ) : Except String TensorMeta := do
  let outShape ← fetchBroadcastedSize dat1.tensorSize dat2.tensorSize
  let out := zeros outShape
  let raw := broadcastLoop dat1.rawData dat1.tensorSize (fetchStride dat1.tensorSize)
      dat2.rawData dat2.tensorSize (fetchStride dat2.tensorSize) outShape op
      outShape.prod 0 (List.replicate outShape.length 0) out.rawData
  .ok ⟨raw, outShape⟩

/-- Mirrors `TensorMeta operator+(const TensorMeta&)`. -/
def add (a b : TensorMeta) : Except String TensorMeta := broadcast a b (· + ·)

/-- Mirrors `TensorMeta operator/(double other)`: broadcasts against the scalar tensor. -/
def divScalar (a : TensorMeta) (x : ℚ) : Except String TensorMeta :=
  broadcast a (scalar x) (· / ·)

/-- Mirrors `operator double()`: succeeds only when `ndim() == 1 && tensorSize[0] == 1`. -/
def toDouble (t : TensorMeta) : Except String ℚ :=
  if t.ndim = 1 ∧ t.tensorSize.getD 0 0 = 1 then .ok (t.rawData.getD 0 0)
  else .error "Higher Dimensional data cannot be converted to Scalar-type"

/-- Insertion step of a descending sort, used to model
`std::sort(v.begin(), v.end(), std::greater<>())`. -/
def insertDesc (x : Nat) : List Nat → List Nat
  | [] => [x]
  | y :: ys => if y ≤ x then x :: y :: ys else y :: insertDesc x ys

/-- Sorts a list of axis indices in descending order. -/
def sortDesc (l : List Nat) : List Nat := l.foldr insertDesc []

/-- Mirrors `TensorMeta squeeze(std::vector<int> dims)`: sorts `dims` descending, and for
each `idx < ndim()` with `tensorSize[idx] == 1` erases that entry of the new shape;
finally rebuilds through the checking constructor. -/
def squeezeDims (t : TensorMeta) (dims : List Nat) : Except String TensorMeta :=
  let newSize := (sortDesc dims).foldl
    (fun ns idx => if idx < t.tensorSize.length ∧ t.tensorSize.getD idx 0 = 1
                   then ns.eraseIdx idx else ns) t.tensorSize
  make t.rawData newSize

/-- Mirrors `TensorMeta unsqueeze(int dim)`: inserts a 1 at position `dim` and rebuilds
through the checking constructor. -/
def unsqueeze (t : TensorMeta) (dim : Nat) : Except String TensorMeta :=
  make t.rawData (t.tensorSize.insertIdx dim 1)

/-- Mirrors `static std::vector<int> fetchSqueezedShape(origShape, axis, keepdims)`.
The `std::set<int>` iterated by `reverse_iterator` is modelled as the deduplicated
list sorted descending.  The bound check is against `origShape.size()`, as in the
source (note: not against the partially-erased shape). -/
def fetchSqueezedShape (origShape : List Nat) (axis : List Nat) (keepdims : Bool) :
    List Nat :=
  if axis = [] then [1]
  else
    let axes := sortDesc axis.dedup
    let fin := axes.foldl
      (fun fs dim => if dim < origShape.length then
          (if keepdims then fs.set dim 1 else fs.eraseIdx dim) else fs) origShape
    if fin = [] then [1] else fin

/-- Mirrors `fetchReduceAxInfo(meta, axis, keepDims)`: returns
`(jump, numBatches, incrementBatchIdx, outShape)`.  `tensorSize[axis]` is an
out-of-bounds read in C++ when `axis >= ndim()`; it is modelled by `getD _ _ 0`
(no theorem depends on the defaulted value). -/
def fetchReduceAxInfo (t : TensorMeta) (axis : Nat) (keepDims : Bool) :
    Nat × Nat × Nat × List Nat :=
  let outShape := fetchSqueezedShape t.tensorSize [axis] keepDims
  let jump := (t.tensorSize.drop (axis + 1)).prod
  let numBatches := (t.tensorSize.take axis).prod
  (jump, numBatches, jump * t.tensorSize.getD axis 0, outShape)

/-- Mirrors `static TensorMeta reduceSingle(meta, ax, op, keepDims, initVal)`:
an accumulator tensor seeded with `initVal`, then a strided scan
`outIdx = (idx / incrementBatchIdx) * jump + idx % jump`. -/
def reduceSingle (t : TensorMeta) (ax : Nat) (op : ℚ → ℚ → ℚ) (keepDims : Bool)
    (initVal : ℚ) : TensorMeta :=
  let info := fetchReduceAxInfo t ax keepDims
  let jump := info.1
  let inc := info.2.2.1
  let outShape := info.2.2.2
  let raw := (List.range t.tensorSize.prod).foldl
    (fun out idx =>
      let outIdx := (idx / inc) * jump + idx % jump
      out.set outIdx (op (out.getD outIdx 0) (t.rawData.getD idx 0)))
    (List.replicate outShape.prod initVal)
  ⟨raw, outShape⟩

/-- Mirrors `static TensorMeta reduce(meta, axis, op, keepDims, initVal)`:
an empty axis list becomes `arange(0, ndim())`; axes are processed in
descending order (`sort(axis.rbegin(), axis.rend())`). -/
def reduce (t : TensorMeta) (axis : List Nat) (op : ℚ → ℚ → ℚ) (keepDims : Bool)
    (initVal : ℚ) : TensorMeta :=
  let axis := if axis = [] then List.range t.ndim else axis
  (sortDesc axis).foldl (fun out dim => reduceSingle out dim op keepDims initVal) t

/-- Mirrors `static TensorMeta sum(meta, dims, keepDims)` (default `initVal = 0`). -/
def sum (t : TensorMeta) (dims : List Nat) (keepDims : Bool) : TensorMeta :=
  reduce t dims (· + ·) keepDims 0

/-- Mirrors `static TensorMeta max(meta, dims, keepDims)`.  Note: the source calls
`reduce(meta, dims, op, keepDims)` and therefore uses the DEFAULT `initVal = 0`,
not negative infinity. -/
def max (t : TensorMeta) (dims : List Nat) (keepDims : Bool) : TensorMeta :=
  reduce t dims (fun a b => Max.max a b) keepDims 0

/-- Mirrors `static TensorMeta mean(meta, dims, keepDims)`: `sum` divided by the
product of `tensorSize[ax]` for `ax` in the ORIGINAL `dims` argument (which is
empty for the default call, making the divisor 1). -/
def mean (t : TensorMeta) (dims : List Nat) (keepDims : Bool) :
    Except String TensorMeta :=
  let out := sum t dims keepDims
  let divisor : Nat := dims.foldl (fun d ax => d * t.tensorSize.getD ax 0) 1
  divScalar out (divisor : ℚ)

/-- One iteration of the `permute` element loop: fetch the new multi-index
(`newIndices[dim] = indices[perm[dim]]`), flatten it against the permuted shape
and stride, write the current source element there, and advance the odometer
over the original shape. -/
def permuteStep (t : TensorMeta) (perm newShape newStride : List Nat)
    (st : List Nat × List ℚ) (ix : Nat) : List Nat × List ℚ :=
  let indices := st.1
  let newIndices := perm.map (fun p => indices.getD p 0)
  let newIndex := getIndex newIndices newShape newStride
  (incIndices indices t.tensorSize, st.2.set newIndex (t.rawData.getD ix 0))

/-- Mirrors `TensorMeta permute(std::vector<int> perm)`.  The
`assert(perm.size() == n)` is modelled as an error; no further validation is
performed, exactly as in the source.  The destination buffer is initialised with
`-1` and rebuilt through the checking constructor. -/
def permute (t : TensorMeta) (perm : List Nat) : Except String TensorMeta :=
  if perm.length ≠ t.tensorSize.length then
    .error "assert failed: Permutation Size Should Match with Original TensorMeta Size!"
  else
    let newShape := perm.map (fun p => t.tensorSize.getD p 0)
    let newStride := fetchStride newShape
    let st := (List.range t.tensorSize.prod).foldl (permuteStep t perm newShape newStride)
      (List.replicate t.tensorSize.length 0, List.replicate t.tensorSize.prod (-1 : ℚ))
    make st.2 newShape

/-- Boolean success test for an `Except`, modelling the C++ `try { ... } catch`
around `fetchBroadcastedSize` in `validateMatmul`. -/
def exceptOk {α : Type} : Except String α → Bool
  | .ok _ => true
  | .error _ => false

/-- Mirrors `static bool validateMatmul(dat1, dat2)` case by case.  The batch
prefixes `v1Part`/`v2Part` are replaced by `{1}` when empty, and broadcastability
is tested by catching the exception of `fetchBroadcastedSize`. -/
def validateMatmul (dat1 dat2 : TensorMeta) : Bool :=
  let v1 := dat1.tensorSize
  let v2 := dat2.tensorSize
  let dim1 := dat1.ndim
  let dim2 := dat2.ndim
  if dim1 = 1 ∧ dim2 = 1 then v1.getD 0 0 = v2.getD 0 0
  else if dim1 = 1 ∧ dim2 = 2 then v1.getD 0 0 = v2.getD 0 0
  else if dim1 = 2 ∧ dim2 = 1 then v1.getD 1 0 = v2.getD 0 0
  else if dim1 = 2 ∧ dim2 = 2 then v1.getD 1 0 = v2.getD 0 0
  else if dim1 = 1 ∧ 2 < dim2 then v1.getD 0 0 = v2.getD (dim2 - 2) 0
  else if 2 < dim1 ∧ dim2 = 1 then v1.getD (dim1 - 1) 0 = v2.getD 0 0
  else if v1.getD (dim1 - 1) 0 ≠ v2.getD (dim2 - 2) 0 then false
  else
    let v1Part := if v1.take (dim1 - 2) = [] then [1] else v1.take (dim1 - 2)
    let v2Part := if v2.take (dim2 - 2) = [] then [1] else v2.take (dim2 - 2)
    exceptOk (fetchBroadcastedSize v1Part v2Part)

/-- Mirrors `static std::vector<int> fetchMatmulSize(dat1, dat2)`. -/
def fetchMatmulSize (dat1 dat2 : TensorMeta) : Except String (List Nat) := do
  if !validateMatmul dat1 dat2 then
    throw "Shape mismatch for MatMul"
  let sz1 := dat1.tensorSize
  let sz2 := dat2.tensorSize
  let M := sz1.getD (sz1.length - 2) 0
  let N := sz2.getD (sz2.length - 1) 0
  if sz1.length = 2 ∧ sz2.length = 2 then
    return [M, N]
  let v1Part := if sz1.take (sz1.length - 2) = [] then [1] else sz1.take (sz1.length - 2)
  let v2Part := if sz2.take (sz2.length - 2) = [] then [1] else sz2.take (sz2.length - 2)
  let matmulSize ← fetchBroadcastedSize v1Part v2Part
  return matmulSize ++ [M, N]

/-- One GEMM output entry at flattened in-block position `mn = i*N + j`:
`sum_k A[offA + i*K + k] * B[offB + k*N + j]`. -/
def gemmEntry (A B : List ℚ) (offA offB K N mn : Nat) : ℚ :=
  ((List.range K).map
    (fun k => A.getD (offA + (mn / N) * K + k) 0 * B.getD (offB + k * N + (mn % N)) 0)).sum

/-- Writes `f m` at positions `off + m` for `m < n`, leaving the rest of `l` alone. -/
def writeBlock (off n : Nat) (f : Nat → ℚ) (l : List ℚ) : List ℚ :=
  (List.range n).foldl (fun o m => o.set (off + m) (f m)) l

/-- Models the external `cblas_dgemm(CblasRowMajor, CblasNoTrans, CblasNoTrans,
M, N, K, 1.0, &A[offSetA], K, &B[offSetB], N, 0.0, &out[offSetOut], N)` call of
`matmulAtomic`: with `alpha = 1` and `beta = 0` it overwrites the `M x N` output
block row-major with the standard contraction over `K`. -/
def matmulAtomic (A B out : List ℚ) (offA offB offOut M K N : Nat) : List ℚ :=
  writeBlock offOut (M * N) (gemmEntry A B offA offB K N) out

/-- Mirrors `static int getMatmulBatchIndex(shape, stride, indices)` with its
`dimShift = indices.size() - shape.size() + 2` alignment. -/
def getMatmulBatchIndex (shape stride indices : List Nat) : Nat :=
  let dimShift := indices.length + 2 - shape.length
  (List.range (shape.length - 2)).foldl
    (fun acc idx => acc +
      (if shape.getD idx 0 = 1 then 0 else indices.getD (idx + dimShift) 0 * stride.getD idx 0))
    0

/-- The batch loop of `matmulBroadcast`: for each `batchIdx`, compute both operand
offsets from the current odometer `indices`, run one GEMM into the output block at
`batchIdx * (M*N)`, then advance the odometer over the batch prefix of the output
shape (the C++ compares `indices[dim] < outShape[dim]` only for
`dim < indices.size()`, i.e. against that prefix). -/
def mmLoop (raw1 raw2 : List ℚ) (sz1 sz2 stride1 stride2 batchShape : List Nat)
    (M K N : Nat) : Nat → Nat → List Nat → List ℚ → List ℚ
  | 0, _, _, out => out
  | steps + 1, batchIdx, indices, out =>
      let off1 := getMatmulBatchIndex sz1 stride1 indices
      let off2 := getMatmulBatchIndex sz2 stride2 indices
      let out1 := matmulAtomic raw1 raw2 out off1 off2 (batchIdx * (M * N)) M K N
      mmLoop raw1 raw2 sz1 sz2 stride1 stride2 batchShape M K N
        steps (batchIdx + 1) (incIndices indices batchShape) out1

/-- Mirrors `static TensorMeta matmulBroadcast(dat1, dat2)`. -/
def matmulBroadcast (dat1 dat2 : TensorMeta) : Except String TensorMeta := do
  let outShape ← fetchMatmulSize dat1 dat2
  let out := zeros outShape
  let batchSize := (outShape.take (outShape.length - 2)).prod
  let M := outShape.getD (outShape.length - 2) 0
  let N := outShape.getD (outShape.length - 1) 0
  let K := dat1.tensorSize.getLastD 0
  let stride1 := fetchStride dat1.tensorSize
  let stride2 := fetchStride dat2.tensorSize
  let raw := mmLoop dat1.rawData dat2.rawData dat1.tensorSize dat2.tensorSize
      stride1 stride2 (outShape.take (outShape.length - 2)) M K N
      batchSize 0 (List.replicate (outShape.length - 2) 0) out.rawData
  .ok ⟨raw, outShape⟩

/-- Mirrors `static TensorMeta matmul(dat1, dat2)`.  The C++ function recurses
into itself after unsqueezing (to a recursion depth of at most three); the
recursion is carried by structural fuel, with `fuel = 4` always sufficient. -/
def matmulGo : Nat → TensorMeta → TensorMeta → Except String TensorMeta
  | 0, _, _ => .error "matmul recursion fuel exhausted"
  | fuel + 1, dat1, dat2 => do
    if !validateMatmul dat1 dat2 then
      throw "Inconsistent data dimension, unable to perform matmul!"
    let dim1 := dat1.ndim
    let dim2 := dat2.ndim
    if dim1 = 1 ∧ dim2 = 1 then do
      let a1 ← dat1.unsqueeze 0
      let a ← a1.unsqueeze 0
      let b1 ← dat2.unsqueeze 1
      let b ← b1.unsqueeze 0
      let out ← matmulBroadcast a b
      let out ← out.squeezeDims [2]
      out.squeezeDims [0]
    else if dim1 = 2 ∧ dim2 = 2 then do
      let a ← dat1.unsqueeze 0
      let b ← dat2.unsqueeze 0
      let out ← matmulGo fuel a b
      out.squeezeDims [0]
    else if dim1 = 1 ∧ dim2 = 2 then do
      let a ← dat1.unsqueeze 0
      let out ← matmulGo fuel a dat2
      out.squeezeDims [0]
    else if dim1 = 2 ∧ dim2 = 1 then do
      let b ← dat2.unsqueeze 1
      let out ← matmulGo fuel dat1 b
      out.squeezeDims [1]
    else if dim1 = 1 then do
      let a1 ← dat1.unsqueeze 0
      let a ← a1.unsqueeze 0
      let out ← matmulBroadcast a dat2
      out.squeezeDims [out.ndim - 2]
    else if dim1 = 2 then do
      let a ← dat1.unsqueeze 0
      matmulBroadcast a dat2
    else if dim2 = 1 then do
      let b1 ← dat2.unsqueeze 1
      let b ← b1.unsqueeze 0
      let out ← matmulBroadcast dat1 b
      out.squeezeDims [out.ndim - 1]
    else if dim2 = 2 then do
      let b ← dat2.unsqueeze 0
      matmulBroadcast dat1 b
    else
      matmulBroadcast dat1 dat2

/-- `TensorMeta::matmul` entry point. -/
def matmul (dat1 dat2 : TensorMeta) : Except String TensorMeta :=
  matmulGo 4 dat1 dat2

/-- Mirrors `static std::pair<...> fetchBroadcastedAxes(base, broadcasted)`:
returns `{axes, addedDims}` where `addedDims` lists the `shift` leading axes the
broadcast added and `axes` lists (in broadcast-frame coordinates `i + shift`) the
axes along which `base` was stretched. -/
def fetchBroadcastedAxes (base broadcasted : TensorMeta) : List Nat × List Nat :=
  let shift := broadcasted.ndim - base.ndim
  let addedDims := List.range shift
  let axes := (List.range base.ndim).filterMap
    (fun i => if base.tensorSize.getD i 0 ≠ broadcasted.tensorSize.getD (i + shift) 0
              then some (i + shift) else none)
  (axes, addedDims)

end TensorMeta

/-- Mirrors `static TensorMeta Tensor::squeezeSum(dat1, dat2)`.  Note the source
destructures `fetchBroadcastedAxes`, which returns `{axes, addedDims}`, as
`auto [addedDims, bcDims] = ...`, so its local `addedDims` holds the stretched
axes and `bcDims` holds the added leading axes; the sums below follow the
source exactly. -/
def squeezeSum (dat1 dat2 : TensorMeta) : TensorMeta :=
  let p := TensorMeta.fetchBroadcastedAxes dat1 dat2
  let addedDims := p.1
  let bcDims := p.2
  let out := dat2
  let out := if bcDims ≠ [] then out.sum bcDims false else out
  if addedDims ≠ [] then out.sum addedDims true else out

/-- The operation recorded in a node's `_backward` closure.  `leaf` stands for an
empty `std::function` (a tensor built directly from data); `add p1 p2` is the
closure installed by `Tensor::operator+`, capturing pointers to both operands
(modelled as node indices). -/
inductive TOp where
  | leaf
  | add (p1 p2 : Nat)
deriving DecidableEq, Repr

/-- Mirrors the per-object state of `class Tensor` (one `ComputationNode`):
value, gradient accumulator, `requiresGrad`, backward closure, parent pointers.
`gradVisited` models the node's own `std::map<std::string, bool> gradVisited`
entry at its own tag (the only key each node ever reads or writes; tags are
unique per node, so the map degenerates to one flag per node). -/
structure TNode where
  data_ : TensorMeta
  grad : TensorMeta
  requiresGrad : Bool
  op : TOp
  prev : List Nat
  gradVisited : Bool
deriving DecidableEq, Repr

/-- The expression graph: nodes indexed by position (pointers become indices). -/
abbrev GraphState : Type := List TNode

/-- Junk node used only for out-of-range index reads (dangling-pointer territory;
never reached in the constructed graphs of the theorems below). -/
def defaultNode : TNode := ⟨⟨[], []⟩, ⟨[], []⟩, false, .leaf, [], false⟩

/-- Dereference a node pointer. -/
def nthNode (s : GraphState) (i : Nat) : TNode := s.getD i defaultNode

/-- Replace a node in the graph. -/
def setNode (s : GraphState) (i : Nat) (n : TNode) : GraphState := s.set i n

namespace Tensor

/-- Mirrors the `Tensor(TensorMeta data, bool requiresGrad, ...)` constructor:
the gradient is a copy of `data` overwritten with zeros (`grad.updateAll(0.0)`),
`_backward` is empty and `prev` is empty.  Returns the new state and the new
node's index.  (The global tag registry only feeds debug printing and the
per-node visited map modelled by `gradVisited`; tags themselves are elided.) -/
def mkTensor (data : TensorMeta) (requiresGrad : Bool) (s : GraphState) :
    GraphState × Nat :=
  (s ++ [⟨data, ⟨List.replicate data.tensorSize.prod 0, data.tensorSize⟩,
         requiresGrad, .leaf, [], false⟩], s.length)

/-- Mirrors `Tensor Tensor::operator+(Tensor& other)`: forward value via
`TensorMeta::operator+`, `requiresGrad` is the OR of the operands, parents are
`{this, &other}` and the `add` closure is installed. -/
def addT (s : GraphState) (i j : Nat) : Except String (GraphState × Nat) := do
  let ni := nthNode s i
  let nj := nthNode s j
  let data ← TensorMeta.add ni.data_ nj.data_
  .ok (s ++ [⟨data, ⟨List.replicate data.tensorSize.prod 0, data.tensorSize⟩,
             ni.requiresGrad || nj.requiresGrad, .add i j, [i, j], false⟩],
       s.length)

/-- The body of the `operator+` backward closure
(`this->grad += squeezeSum(this->grad, incGrad)`, then the same for `other`).
When both captured pointers alias the same node the second accumulate reads the
first one's update, exactly as in C++. -/
def runAddBackward (s : GraphState) (p1 p2 : Nat) (incGrad : TensorMeta) :
    Except String GraphState := do
  let s ← do
    let n1 := nthNode s p1
    if n1.requiresGrad then do
      let g ← TensorMeta.add n1.grad (squeezeSum n1.grad incGrad)
      pure (setNode s p1 { n1 with grad := g })
    else pure s
  let n2 := nthNode s p2
  if n2.requiresGrad then do
    let g ← TensorMeta.add n2.grad (squeezeSum n2.grad incGrad)
    pure (setNode s p2 { n2 with grad := g })
  else pure s

/-- Dispatches a node's `_backward` closure on its recorded operation. -/
def runClosure (s : GraphState) (op : TOp) (incGrad : TensorMeta) :
    Except String GraphState :=
  match op with
  | .leaf => .ok s
  | .add p1 p2 => runAddBackward s p1 p2 incGrad

/-- Mirrors `void Tensor::backward(bool isRoot, bool verbose)`:

1. root only: `grad.updateAll(1.0); gradVisited.clear()` — clearing the ROOT
   node's own map, i.e. only its own flag;
2. return if this node's own visited flag is set, else set it;
3. if `requiresGrad && _backward`: invoke the closure with the node's current
   gradient, then recurse into each parent with `isRoot = false`.

The C++ recursion is over an arbitrary pointer graph; it is carried here by
structural fuel (the graphs in the theorems below use ample fuel). -/
def backwardGo : Nat → GraphState → Nat → Bool → Except String GraphState
  | 0, _, _, _ => .error "backward recursion fuel exhausted"
  | fuel + 1, s, i, isRoot => do
    let s := if isRoot then
        setNode s i { nthNode s i with grad := (nthNode s i).grad.updateAll 1,
                                       gradVisited := false }
      else s
    if (nthNode s i).gradVisited then .ok s
    else do
      let s := setNode s i { nthNode s i with gradVisited := true }
      let n := nthNode s i
      if n.requiresGrad ∧ n.op ≠ .leaf then do
        let s ← runClosure s n.op n.grad
        n.prev.foldlM (fun s p => backwardGo fuel s p false) s
      else .ok s

/-- Mirrors `void Tensor::updateData(TensorMeta value)`: the source performs NO
shape check and unconditionally assigns `this->data_ = value`. -/
def updateData (s : GraphState) (i : Nat) (value : TensorMeta) : GraphState :=
  setNode s i { nthNode s i with data_ := value }

end Tensor

/-- Diamond scenario: tracked scalar leaf `a` (node 0) with value `x`,
`d = a + a` (node 1), then `d.backward()`. -/
def diamondRun (x : ℚ) : Except String GraphState := do
  let p := Tensor.mkTensor (TensorMeta.scalar x) true []
  let q ← Tensor.addT p.1 p.2 p.2
  Tensor.backwardGo 4 q.1 q.2 true

/-- Stretch-and-extend scenario: tracked leaf `a` (node 0) of shape `[2,1]`,
untracked leaf `b` (node 1) of shape `[2,2,2]`, `c = a + b` (node 2), then
`c.backward()`.  The forward broadcast both stretches the trailing axis of `a`
and prepends a batch axis. -/
def stretchExtendRun : Except String GraphState := do
  let p := Tensor.mkTensor ⟨[1, 2], [2, 1]⟩ true []
  let q := Tensor.mkTensor ⟨List.replicate 8 0, [2, 2, 2]⟩ false p.1
  let r ← Tensor.addT q.1 p.2 q.2
  Tensor.backwardGo 4 r.1 r.2 true

/-- Two-level diamond graph for the repeated-backward scenario: tracked scalar
leaf `a` (node 0), `m = a + a` (node 1), `r = m + m` (node 2). -/
def twoLevelGraph : Except String (GraphState × Nat) := do
  let p := Tensor.mkTensor (TensorMeta.scalar 1) true []
  let q ← Tensor.addT p.1 p.2 p.2
  let r ← Tensor.addT q.1 q.2 q.2
  .ok (r.1, r.2)

/-- One `backward()` call on the root of the two-level graph. -/
def twoLevelOnce : Except String GraphState := do
  let g ← twoLevelGraph
  Tensor.backwardGo 4 g.1 g.2 true

/-- Two consecutive `backward()` calls on the same root of the same graph. -/
def twoLevelTwice : Except String GraphState := do
  let g ← twoLevelGraph
  let s ← Tensor.backwardGo 4 g.1 g.2 true
  Tensor.backwardGo 4 s g.2 true

/-- Spec-side formulation of broadcastability (for comparison with the source
function `fetchBroadcastedSize`): align shapes by trailing dimension; each
aligned pair must be equal or contain a 1; a missing dimension is allowed. -/
def specBroadcastable (sz1 sz2 : List Nat) : Prop :=
  ∀ i, i < Min.min sz1.length sz2.length →
    sz1.reverse.getD i 0 = sz2.reverse.getD i 0 ∨
    sz1.reverse.getD i 0 = 1 ∨ sz2.reverse.getD i 0 = 1

/-- Spec-side formulation of the broadcast result shape: the dimension-wise
maximum of the two shapes aligned by trailing dimension (missing dimensions
count as 1). -/
def specMaxShape (sz1 sz2 : List Nat) : List Nat :=
  ((List.range (Nat.max sz1.length sz2.length)).map
    (fun i => Nat.max (sz1.reverse.getD i 1) (sz2.reverse.getD i 1))).reverse

/-! ## Theorems -/

/-! Helper lemmas for evaluating `Except` programs by rewriting. -/

theorem exceptBindOk {α β : Type} (a : α) (f : α → Except String β) :
    (Except.ok a : Except String α) >>= f = f a := rfl

theorem exceptBindErr {α β : Type} (e : String) (f : α → Except String β) :
    (Except.error e : Except String α) >>= f = .error e := rfl

theorem exceptMapOk {α β : Type} (f : α → β) (a : α) :
    Except.map f (Except.ok a : Except String α) = .ok (f a) := rfl

theorem exceptMapErr {α β : Type} (f : α → β) (e : String) :
    Except.map f (Except.error e : Except String α) = .error e := rfl

theorem exceptPure {α : Type} (a : α) : (pure a : Except String α) = .ok a := rfl

theorem exceptThrow {α : Type} (e : String) : (throw e : Except String α) = .error e := rfl

/-- C1: for every gradient-tracked scalar tensor `a`, building `d = a + a` and
calling `d.backward()` leaves the accumulated gradient of `a` equal to `2`
(not `1`): the node is visited once, but both edges from `d` into `a`
accumulate a contribution of `1` each. -/
theorem C1_diamond_accumulation (x : ℚ) :
    (diamondRun x).map (fun s => (nthNode s 0).grad) =
      .ok ⟨[2], [1]⟩ := by
  simp +decide [diamondRun, Tensor.mkTensor, Tensor.addT, Tensor.backwardGo,
    Tensor.runClosure, Tensor.runAddBackward, squeezeSum, TensorMeta.fetchBroadcastedAxes,
    TensorMeta.add, nthNode, setNode, defaultNode, TensorMeta.updateAll, TensorMeta.scalar,
    TensorMeta.broadcast, TensorMeta.fetchBroadcastedSize, TensorMeta.bcRev, TensorMeta.bcDim,
    TensorMeta.zeros, TensorMeta.broadcastLoop, TensorMeta.incIndices, TensorMeta.incIndicesRev,
    TensorMeta.getIndex, TensorMeta.fetchStride, TensorMeta.ndim, TensorMeta.sum,
    TensorMeta.reduce, TensorMeta.reduceSingle, TensorMeta.fetchReduceAxInfo,
    TensorMeta.fetchSqueezedShape, TensorMeta.sortDesc, TensorMeta.insertDesc,
    List.range_succ, exceptBindOk, exceptBindErr, exceptMapOk, exceptMapErr, exceptPure,
    exceptThrow]
  norm_num

/-- C6 (code bug): for the non-empty array `[1,2,3]` of shape `[3]`, `mean` with
the default (empty) axis set returns the plain sum `[6]`, not `sum / 3 = [2]`:
the divisor loop iterates over the original empty `dims` and so divides by `1`
instead of by the product of the reduced axes' sizes. -/
theorem C6_mean_default_divides_by_one :
    TensorMeta.mean ⟨[1, 2, 3], [3]⟩ [] false = .ok ⟨[6], [1]⟩ ∧ (6 : ℚ) ≠ 2 := by
  constructor
  · norm_num [TensorMeta.mean, TensorMeta.sum, TensorMeta.reduce, TensorMeta.reduceSingle,
      TensorMeta.fetchReduceAxInfo, TensorMeta.fetchSqueezedShape, TensorMeta.sortDesc,
      TensorMeta.insertDesc, TensorMeta.ndim, TensorMeta.divScalar, TensorMeta.broadcast,
      TensorMeta.fetchBroadcastedSize, TensorMeta.bcRev, TensorMeta.bcDim, TensorMeta.zeros,
      TensorMeta.broadcastLoop, TensorMeta.incIndices, TensorMeta.incIndicesRev,
      TensorMeta.getIndex, TensorMeta.fetchStride, TensorMeta.scalar, List.range_succ,
      exceptBindOk, exceptBindErr, exceptMapOk, exceptMapErr, exceptPure, exceptThrow]
  · norm_num

/-- C7 (code bug): `max` seeds its accumulator with the default `initVal = 0`
instead of negative infinity, so the maximum of the all-negative array
`[-1,-2]` is reported as `0` rather than `-1`. -/
theorem C7_max_seeded_with_zero :
    TensorMeta.max ⟨[-1, -2], [2]⟩ [] false = ⟨[0], [1]⟩ ∧ (0 : ℚ) ≠ -1 := by
  constructor
  · norm_num [TensorMeta.max, TensorMeta.reduce, TensorMeta.reduceSingle,
      TensorMeta.fetchReduceAxInfo, TensorMeta.fetchSqueezedShape, TensorMeta.sortDesc,
      TensorMeta.insertDesc, TensorMeta.ndim, List.range_succ]
  · norm_num

/-- C2 (code bug): in the stretch-and-extend scenario (`a` of value shape
`[2,1]` broadcast against `[2,2,2]`), the gradient accumulated into `a` by the
`+` backward closure has shape `[2,2]`, violating the invariant
`gradient.shape == value.shape`: after `squeezeSum` removes the added leading
axis, it sums the stretched axis by its index in the pre-reduction frame
(axis 2 of a now rank-2 array, an out-of-bounds `tensorSize` read in C++),
which leaves the stretched axis unreduced. -/
theorem C2_gradient_shape_invariant_violated :
    (stretchExtendRun.map
      (fun s => ((nthNode s 0).grad.tensorSize, (nthNode s 0).data_.tensorSize))) =
      .ok ([2, 2], [2, 1]) ∧ ([2, 2] : List Nat) ≠ [2, 1] := by
  constructor
  · simp +decide [stretchExtendRun, Tensor.mkTensor, Tensor.addT, Tensor.backwardGo,
      Tensor.runClosure, Tensor.runAddBackward, squeezeSum, TensorMeta.fetchBroadcastedAxes,
      TensorMeta.add, nthNode, setNode, defaultNode, TensorMeta.updateAll, TensorMeta.scalar,
      TensorMeta.broadcast, TensorMeta.fetchBroadcastedSize, TensorMeta.bcRev, TensorMeta.bcDim,
      TensorMeta.zeros, TensorMeta.broadcastLoop, TensorMeta.incIndices,
      TensorMeta.incIndicesRev, TensorMeta.getIndex, TensorMeta.fetchStride, TensorMeta.ndim,
      TensorMeta.sum, TensorMeta.reduce, TensorMeta.reduceSingle, TensorMeta.fetchReduceAxInfo,
      TensorMeta.fetchSqueezedShape, TensorMeta.sortDesc, TensorMeta.insertDesc,
      List.range_succ, exceptBindOk, exceptBindErr, exceptMapOk, exceptMapErr, exceptPure,
      exceptThrow]
  · decide

set_option maxHeartbeats 1600000 in
/-- C3 (code bug): `gradVisited` is a per-node map and the root clears only its
own, so a second `backward()` on the same graph (`a` node 0, `m = a + a` node 1,
`r = m + m` node 2) does not re-run the closure of the inner node `m`: after the
first call `gradient(a) = 4`, `gradient(m) = 2` and the visited marker of `m` is
still set; the second call re-runs only the root closure (`gradient(m)` becomes
`4`) while `gradient(a)` stays `4` — had the marker of `m` been cleared, the
closure of `m` would have run exactly once more and changed `gradient(a)`. -/
theorem C3_second_backward_skips_inner_node :
    (twoLevelOnce.map
      (fun s => ((nthNode s 0).grad, (nthNode s 1).grad, (nthNode s 1).gradVisited))) =
      .ok (⟨[4], [1]⟩, ⟨[2], [1]⟩, true) ∧
    (twoLevelTwice.map
      (fun s => ((nthNode s 0).grad, (nthNode s 1).grad))) =
      .ok (⟨[4], [1]⟩, ⟨[4], [1]⟩) := by
  constructor
  · simp +decide [twoLevelOnce, twoLevelGraph, Tensor.mkTensor, Tensor.addT, Tensor.backwardGo,
      Tensor.runClosure, Tensor.runAddBackward, squeezeSum, TensorMeta.fetchBroadcastedAxes,
      TensorMeta.add, nthNode, setNode, defaultNode, TensorMeta.updateAll, TensorMeta.scalar,
      TensorMeta.broadcast, TensorMeta.fetchBroadcastedSize, TensorMeta.bcRev, TensorMeta.bcDim,
      TensorMeta.zeros, TensorMeta.broadcastLoop, TensorMeta.incIndices,
      TensorMeta.incIndicesRev, TensorMeta.getIndex, TensorMeta.fetchStride, TensorMeta.ndim,
      TensorMeta.sum, TensorMeta.reduce, TensorMeta.reduceSingle, TensorMeta.fetchReduceAxInfo,
      TensorMeta.fetchSqueezedShape, TensorMeta.sortDesc, TensorMeta.insertDesc,
      List.range_succ, exceptBindOk, exceptBindErr, exceptMapOk, exceptMapErr, exceptPure,
      exceptThrow]
    norm_num
  · simp +decide [twoLevelTwice, twoLevelGraph, Tensor.mkTensor, Tensor.addT, Tensor.backwardGo,
      Tensor.runClosure, Tensor.runAddBackward, squeezeSum, TensorMeta.fetchBroadcastedAxes,
      TensorMeta.add, nthNode, setNode, defaultNode, TensorMeta.updateAll, TensorMeta.scalar,
      TensorMeta.broadcast, TensorMeta.fetchBroadcastedSize, TensorMeta.bcRev, TensorMeta.bcDim,
      TensorMeta.zeros, TensorMeta.broadcastLoop, TensorMeta.incIndices,
      TensorMeta.incIndicesRev, TensorMeta.getIndex, TensorMeta.fetchStride, TensorMeta.ndim,
      TensorMeta.sum, TensorMeta.reduce, TensorMeta.reduceSingle, TensorMeta.fetchReduceAxInfo,
      TensorMeta.fetchSqueezedShape, TensorMeta.sortDesc, TensorMeta.insertDesc,
      List.range_succ, exceptBindOk, exceptBindErr, exceptMapOk, exceptMapErr, exceptPure,
      exceptThrow]
    norm_num

/-- C10: converting an array to a double succeeds, and returns its sole element,
exactly when its shape is exactly `[1]`; in particular every array of rank 2 or
more fails with the scalar-conversion error even when it holds exactly one
element (e.g. shape `[1,1]`). -/
theorem C10_scalar_conversion (t : TensorMeta) :
    (TensorMeta.toDouble t = .ok (t.rawData.getD 0 0) ↔ t.tensorSize = [1]) ∧
    ((∃ v, TensorMeta.toDouble t = .ok v) ↔ t.tensorSize = [1]) ∧
    (2 ≤ t.ndim →
      TensorMeta.toDouble t =
        .error "Higher Dimensional data cannot be converted to Scalar-type") := by
  obtain ⟨raw, sz⟩ := t
  match sz with
  | [] => simp [TensorMeta.toDouble, TensorMeta.ndim]
  | [a] =>
    by_cases h : a = 1
    · subst h
      simp [TensorMeta.toDouble, TensorMeta.ndim]
    · simp [TensorMeta.toDouble, TensorMeta.ndim, h]
  | a :: b :: rest => simp [TensorMeta.toDouble, TensorMeta.ndim]

/-- C10 witness: the rank-2 single-element array `[[7]]` (shape `[1,1]`) is
rejected while `[7]` (shape `[1]`) converts to `7`. -/
theorem C10_scalar_conversion_witness :
    (TensorMeta.toDouble ⟨[7], [1, 1]⟩ =
      .error "Higher Dimensional data cannot be converted to Scalar-type") ∧
    TensorMeta.toDouble ⟨[7], [1]⟩ = .ok 7 := by
  refine ⟨(C10_scalar_conversion ⟨[7], [1, 1]⟩).2.2 (by decide), ?_⟩
  have h := (C10_scalar_conversion ⟨[7], [1]⟩).1.mpr rfl
  exact h

/-- C8 counterexample: `updateData` performs no shape check at all: replacing the
data of a tensor of value shape `[1]` with a `[2]`-shaped value succeeds and the
new value is stored (the claim requires a `ShapeMismatch` failure that leaves the
value unchanged). -/
theorem C8_counterexample :
    (nthNode (Tensor.updateData (Tensor.mkTensor ⟨[1], [1]⟩ false []).1 0
        ⟨[5, 6], [2]⟩) 0).data_ = ⟨[5, 6], [2]⟩ ∧
    ([2] : List Nat) ≠ [1] := by
  constructor
  · rfl
  · decide

/-- C8 amended: `updateData(newValue)` unconditionally replaces the stored data
with `newValue`, whatever its shape; no `ShapeMismatch` is raised and the rest of
the node (in particular its gradient) is untouched. -/
theorem C8_amended_updateData_unconditional (s : GraphState) (i : Nat) (v : TensorMeta)
    (h : i < s.length) :
    (nthNode (Tensor.updateData s i v) i).data_ = v ∧
    (nthNode (Tensor.updateData s i v) i).grad = (nthNode s i).grad := by
  unfold Tensor.updateData setNode nthNode
  rw [List.getD_eq_getElem?_getD, List.getElem?_set_eq_of_lt _ h]
  exact ⟨rfl, rfl⟩

/-- C8 amended witness at a concrete graph and mismatched shape. -/
theorem C8_amended_witness :
    (nthNode (Tensor.updateData (Tensor.mkTensor ⟨[2], [1]⟩ true []).1 0
        ⟨[5, 6, 7], [3]⟩) 0).data_ = ⟨[5, 6, 7], [3]⟩ ∧
    (nthNode (Tensor.updateData (Tensor.mkTensor ⟨[2], [1]⟩ true []).1 0
        ⟨[5, 6, 7], [3]⟩) 0).grad =
      (nthNode (Tensor.mkTensor ⟨[2], [1]⟩ true []).1 0).grad :=
  C8_amended_updateData_unconditional (Tensor.mkTensor ⟨[2], [1]⟩ true []).1 0
    ⟨[5, 6, 7], [3]⟩ (by decide)

/-- C9 counterexample: the order `[0,0]` is not a permutation of `0..1`, yet
`permute` on a `[2,2]` array does not fail: it succeeds and returns a buffer in
which the never-written slots still hold the `-1` fill value. -/
theorem C9_counterexample :
    TensorMeta.permute ⟨[10, 20, 30, 40], [2, 2]⟩ [0, 0] =
      .ok ⟨[20, -1, -1, 40], [2, 2]⟩ ∧
    ¬ ([0, 0] : List Nat).Perm (List.range 2) := by
  constructor
  · rfl
  · decide

/-- Reading every position of a list through `getD` reproduces the list
(any default). -/
theorem map_getD_range {α : Type} (l : List α) (d : α) :
    (List.range l.length).map (fun i => l.getD i d) = l := by
  induction l with
  | nil => rfl
  | cons a as ih =>
    rw [List.length_cons, List.range_succ_eq_map, List.map_cons, List.map_map]
    refine congrArg₂ _ rfl ?_
    have hc : ((fun i => (a :: as).getD i d) ∘ Nat.succ) = fun i => as.getD i d := by
      funext i
      simp [List.getD]
    rw [hc, ih]

/-- The `permute` element loop only ever writes the destination buffer through
`List.set`, so the buffer length is invariant. -/
theorem permuteStep_foldl_snd_length (t : TensorMeta) (perm newShape newStride : List Nat) :
    ∀ (l : List Nat) (st : List Nat × List ℚ),
      ((l.foldl (TensorMeta.permuteStep t perm newShape newStride) st).2).length
        = st.2.length := by
  intro l
  induction l with
  | nil => intro st; rfl
  | cons a as ih =>
    intro st
    rw [List.foldl_cons, ih]
    exact List.length_set ..

/-- C9 amended: `permute(order)` validates (via `assert`) only that `order` has
length `rank`; it does not check that `order` is a permutation (see the
counterexample, where a repeated-index order succeeds and returns a buffer with
never-written fill slots).  For every `order` that IS a valid permutation of
`0..rank-1` it succeeds and returns a new array whose shape is the corresponding
reordering `[tensorSize[order[0]], ...]` of the axes, with unchanged total
element count. -/
theorem C9_permute_validation (t : TensorMeta) (order : List Nat)
    (hinv : t.rawData.length = t.tensorSize.prod) :
    (order.length ≠ t.tensorSize.length →
      ∀ u, TensorMeta.permute t order ≠ .ok u) ∧
    (order.Perm (List.range t.tensorSize.length) →
      ∃ u, TensorMeta.permute t order = .ok u ∧
        u.tensorSize = order.map (fun p => t.tensorSize.getD p 0) ∧
        u.rawData.length = t.rawData.length) := by
  constructor
  · intro h u
    simp [TensorMeta.permute, h]
  · intro hperm
    have hlen : order.length = t.tensorSize.length := by
      simpa using hperm.length_eq
    have hshape : (order.map (fun p => t.tensorSize.getD p 0)).Perm t.tensorSize := by
      have h1 := hperm.map (fun p => t.tensorSize.getD p 0)
      rwa [map_getD_range t.tensorSize 0] at h1
    have hprod : (order.map (fun p => t.tensorSize.getD p 0)).prod = t.tensorSize.prod :=
      hshape.prod_eq
    rw [TensorMeta.permute, if_neg (by simpa using hlen)]
    rw [TensorMeta.make]
    rw [if_pos (by rw [permuteStep_foldl_snd_length, List.length_replicate, hprod])]
    refine ⟨_, rfl, rfl, ?_⟩
    rw [permuteStep_foldl_snd_length, List.length_replicate, hinv]

/-- C9 amended witness: permuting a `[2,3]` array with the valid permutation
`[1,0]` succeeds with shape `[3,2]` and six elements. -/
theorem C9_permute_validation_witness :
    (([1, 0] : List Nat).length ≠ ([2, 3] : List Nat).length →
      ∀ u, TensorMeta.permute ⟨[1, 2, 3, 4, 5, 6], [2, 3]⟩ [1, 0] ≠ .ok u) ∧
    (([1, 0] : List Nat).Perm (List.range ([2, 3] : List Nat).length) →
      ∃ u, TensorMeta.permute ⟨[1, 2, 3, 4, 5, 6], [2, 3]⟩ [1, 0] = .ok u ∧
        u.tensorSize = ([1, 0] : List Nat).map
          (fun p => ([2, 3] : List Nat).getD p 0) ∧
        u.rawData.length = ([1, 2, 3, 4, 5, 6] : List ℚ).length) :=
  C9_permute_validation ⟨[1, 2, 3, 4, 5, 6], [2, 3]⟩ [1, 0] (by decide)

/-- `Nat.max` facts restated in applied form for rewriting. -/
theorem natMaxRight {a b : Nat} (h : a ≤ b) : Nat.max a b = b := Nat.max_eq_right h

theorem natMaxLeft {a b : Nat} (h : b ≤ a) : Nat.max a b = a := Nat.max_eq_left h

theorem natMaxSucc (a b : Nat) : Nat.max (a + 1) (b + 1) = Nat.max a b + 1 :=
  Nat.succ_max_succ a b

/-- With positive entries and default 1, `getD` is always at least 1. -/
theorem one_le_getD_one {l : List Nat} (hp : ∀ d ∈ l, 0 < d) (i : Nat) :
    1 ≤ l.getD i 1 := by
  rcases Nat.lt_or_ge i l.length with h | h
  · rw [List.getD_eq_getElem?_getD, List.getElem?_eq_getElem h]
    exact hp _ (List.getElem_mem h)
  · rw [List.getD_eq_getElem?_getD, List.getElem?_eq_none h]
    simp

/-- The `while` loop of `fetchBroadcastedSize` copies the remaining dimensions
when one (reversed) shape is exhausted. -/
theorem bcRev_nil_left (r : List Nat) : TensorMeta.bcRev [] r = .ok r := by
  induction r with
  | nil => rw [TensorMeta.bcRev]
  | cons b bs ih => rw [TensorMeta.bcRev, ih]; rfl

theorem bcRev_nil_right (r : List Nat) : TensorMeta.bcRev r [] = .ok r := by
  induction r with
  | nil => rw [TensorMeta.bcRev]
  | cons a as ih => rw [TensorMeta.bcRev, ih]; rfl

/-- On positive, trailing-aligned-compatible reversed shapes, the
`fetchBroadcastedSize` loop succeeds with the dimension-wise maximum. -/
theorem bcRev_ok : ∀ (r1 r2 : List Nat), (∀ d ∈ r1, 0 < d) → (∀ d ∈ r2, 0 < d) →
    (∀ i, i < Min.min r1.length r2.length →
      r1.getD i 0 = r2.getD i 0 ∨ r1.getD i 0 = 1 ∨ r2.getD i 0 = 1) →
    TensorMeta.bcRev r1 r2 =
      .ok ((List.range (Nat.max r1.length r2.length)).map
        (fun i => Nat.max (r1.getD i 1) (r2.getD i 1))) := by
  intro r1
  induction r1 with
  | nil =>
    intro r2 _ hp2 _
    rw [bcRev_nil_left]
    refine congrArg _ ?_
    have h0 : Nat.max ([] : List Nat).length r2.length = r2.length :=
      natMaxRight (Nat.zero_le _)
    rw [h0]
    have hmap : ∀ i ∈ List.range r2.length,
        Nat.max (([] : List Nat).getD i 1) (r2.getD i 1) = r2.getD i 1 := by
      intro i _
      exact natMaxRight (one_le_getD_one hp2 i)
    rw [List.map_congr_left hmap, map_getD_range]
  | cons a as ih =>
    intro r2 hp1 hp2 hal
    cases r2 with
    | nil =>
      rw [bcRev_nil_right]
      refine congrArg _ ?_
      have h0 : Nat.max (a :: as).length ([] : List Nat).length = (a :: as).length :=
        natMaxLeft (Nat.zero_le _)
      rw [h0]
      have hmap : ∀ i ∈ List.range (a :: as).length,
          Nat.max ((a :: as).getD i 1) (([] : List Nat).getD i 1) = (a :: as).getD i 1 := by
        intro i _
        exact natMaxLeft (one_le_getD_one hp1 i)
      rw [List.map_congr_left hmap, map_getD_range]
    | cons b bs =>
      have ha : 0 < a := hp1 a (by simp)
      have hb : 0 < b := hp2 b (by simp)
      have h0 := hal 0 (by simp)
      simp only [List.getD_cons_zero] at h0
      have hd : TensorMeta.bcDim a b = .ok (Nat.max a b) := by
        have ha0 : ¬(a = 0 ∨ b = 0) := by omega
        by_cases hab : a = b
        · subst hab
          rw [TensorMeta.bcDim, if_neg ha0, if_pos rfl]
          rw [natMaxLeft (Nat.le_refl a)]
        · rcases h0 with h | h | h
          · exact absurd h hab
          · rw [TensorMeta.bcDim, if_neg ha0, if_neg hab, if_pos h]
            rw [h, natMaxRight hb]
          · have ha1 : a ≠ 1 := by omega
            rw [TensorMeta.bcDim, if_neg ha0, if_neg hab, if_neg ha1, if_pos h]
            rw [h, natMaxLeft ha]
      have htail := ih bs (fun d hd => hp1 d (List.mem_cons_of_mem a hd))
        (fun d hd => hp2 d (List.mem_cons_of_mem b hd))
        (fun i hi => by
          have := hal (i + 1) (by simp at hi ⊢; omega)
          simpa [List.getD] using this)
      rw [TensorMeta.bcRev, hd, exceptBindOk, htail, exceptBindOk]
      refine congrArg _ ?_
      have hm : Nat.max (a :: as).length (b :: bs).length
          = Nat.max as.length bs.length + 1 := by
        rw [List.length_cons, List.length_cons]
        exact natMaxSucc ..
      rw [hm, List.range_succ_eq_map, List.map_cons, List.map_map]
      refine congrArg₂ _ (by simp) ?_
      have hc : ((fun i => Nat.max ((a :: as).getD i 1) ((b :: bs).getD i 1)) ∘ Nat.succ)
          = fun i => Nat.max (as.getD i 1) (bs.getD i 1) := by
        funext i
        simp [List.getD]
      rw [hc]

/-- A non-1, non-equal, positive dimension pair makes `bcDim` throw. -/
theorem bcDim_err (a b : Nat) (hab : a ≠ b) (ha1 : a ≠ 1) (hb1 : b ≠ 1) :
    ∃ e, TensorMeta.bcDim a b = .error e := by
  by_cases h0 : a = 0 ∨ b = 0
  · exact ⟨_, by rw [TensorMeta.bcDim, if_pos h0]⟩
  · exact ⟨_, by rw [TensorMeta.bcDim, if_neg h0, if_neg hab, if_neg ha1, if_neg hb1]⟩

/-- A violating aligned pair anywhere makes the `fetchBroadcastedSize` loop throw. -/
theorem bcRev_err : ∀ (r1 r2 : List Nat) (i : Nat), i < Min.min r1.length r2.length →
    r1.getD i 0 ≠ r2.getD i 0 → r1.getD i 0 ≠ 1 → r2.getD i 0 ≠ 1 →
    ∃ e, TensorMeta.bcRev r1 r2 = .error e := by
  intro r1
  induction r1 with
  | nil =>
    intro r2 i hi _ _ _
    simp at hi
  | cons a as ih =>
    intro r2 i hi hne h1 h2
    cases r2 with
    | nil => simp at hi
    | cons b bs =>
      cases i with
      | zero =>
        simp only [List.getD_cons_zero] at hne h1 h2
        obtain ⟨e, he⟩ := bcDim_err a b hne h1 h2
        exact ⟨e, by rw [TensorMeta.bcRev, he, exceptBindErr]⟩
      | succ j =>
        have hj : j < Min.min as.length bs.length := by
          simp at hi ⊢
          omega
        obtain ⟨e, he⟩ := ih bs j hj (by simpa [List.getD] using hne)
          (by simpa [List.getD] using h1) (by simpa [List.getD] using h2)
        cases hd : TensorMeta.bcDim a b with
        | error e2 => exact ⟨e2, by rw [TensorMeta.bcRev, hd, exceptBindErr]⟩
        | ok d => exact ⟨e, by rw [TensorMeta.bcRev, hd, exceptBindOk, he, exceptBindErr]⟩

/-- The `broadcast` element loop writes through `List.set` only, so the output
buffer keeps its length. -/
theorem broadcastLoop_length (raw1 : List ℚ) (sz1 st1 : List Nat) (raw2 : List ℚ)
    (sz2 st2 : List Nat) (outShape : List Nat) (op : ℚ → ℚ → ℚ) :
    ∀ (steps idx : Nat) (indices : List Nat) (out : List ℚ),
      (TensorMeta.broadcastLoop raw1 sz1 st1 raw2 sz2 st2 outShape op
        steps idx indices out).length = out.length := by
  intro steps
  induction steps with
  | zero => intro idx indices out; rfl
  | succ n ih =>
    intro idx indices out
    rw [TensorMeta.broadcastLoop, ih]
    exact List.length_set ..

/-- Success half of the broadcast rule: `fetchBroadcastedSize` returns the
spec-side dimension-wise maximum shape. -/
theorem fetchBroadcastedSize_ok (sz1 sz2 : List Nat) (h1 : sz1 ≠ []) (h2 : sz2 ≠ [])
    (hp1 : ∀ d ∈ sz1, 0 < d) (hp2 : ∀ d ∈ sz2, 0 < d) (hbc : specBroadcastable sz1 sz2) :
    TensorMeta.fetchBroadcastedSize sz1 sz2 = .ok (specMaxShape sz1 sz2) := by
  rw [TensorMeta.fetchBroadcastedSize, if_neg (by simp [h1, h2])]
  have hr := bcRev_ok sz1.reverse sz2.reverse
    (fun d hd => hp1 d (List.mem_reverse.mp hd))
    (fun d hd => hp2 d (List.mem_reverse.mp hd))
    (fun i hi => hbc i (by simpa using hi))
  rw [hr, exceptMapOk]
  rw [specMaxShape]
  simp only [List.length_reverse]

/-- C4: for every pair of non-degenerate shapes (non-empty, positive dims), a
trailing-aligned pair of shapes where every aligned dimension pair is equal, has
a 1, or is missing, makes every elementwise binary operation succeed with the
dimension-wise maximum shape; any other mismatch throws before any output
exists; and the concrete example `[1,2,3]` (shape `[3,1]`) plus `[10,20]`
(shape `[1,2]`) yields `[[11,21],[12,22],[13,23]]` of shape `[3,2]`. -/
theorem C4_broadcast_correctness (sz1 sz2 : List Nat) (raw1 raw2 : List ℚ)
    (op : ℚ → ℚ → ℚ) (h1 : sz1 ≠ []) (h2 : sz2 ≠ [])
    (hp1 : ∀ d ∈ sz1, 0 < d) (hp2 : ∀ d ∈ sz2, 0 < d) :
    (specBroadcastable sz1 sz2 →
      ∃ t, TensorMeta.broadcast ⟨raw1, sz1⟩ ⟨raw2, sz2⟩ op = .ok t ∧
        t.tensorSize = specMaxShape sz1 sz2 ∧
        t.rawData.length = (specMaxShape sz1 sz2).prod) ∧
    (¬ specBroadcastable sz1 sz2 →
      ∀ t, TensorMeta.broadcast ⟨raw1, sz1⟩ ⟨raw2, sz2⟩ op ≠ .ok t) ∧
    TensorMeta.add ⟨[1, 2, 3], [3, 1]⟩ ⟨[10, 20], [1, 2]⟩ =
      .ok ⟨[11, 21, 12, 22, 13, 23], [3, 2]⟩ := by
  refine ⟨?_, ?_, ?_⟩
  · intro hbc
    have hf := fetchBroadcastedSize_ok sz1 sz2 h1 h2 hp1 hp2 hbc
    have hb : TensorMeta.broadcast ⟨raw1, sz1⟩ ⟨raw2, sz2⟩ op =
        .ok ⟨TensorMeta.broadcastLoop raw1 sz1 (TensorMeta.fetchStride sz1) raw2 sz2
              (TensorMeta.fetchStride sz2) (specMaxShape sz1 sz2) op
              (specMaxShape sz1 sz2).prod 0
              (List.replicate (specMaxShape sz1 sz2).length 0)
              (TensorMeta.zeros (specMaxShape sz1 sz2)).rawData,
            specMaxShape sz1 sz2⟩ := by
      rw [TensorMeta.broadcast, hf]
      rfl
    refine ⟨_, hb, rfl, ?_⟩
    rw [broadcastLoop_length]
    simp [TensorMeta.zeros]
  · intro hbc t
    rw [specBroadcastable] at hbc
    push_neg at hbc
    obtain ⟨i, hi, hne, h1i, h2i⟩ := hbc
    obtain ⟨e, he⟩ := bcRev_err sz1.reverse sz2.reverse i
      (by simpa [List.length_reverse] using hi) hne h1i h2i
    rw [TensorMeta.broadcast, TensorMeta.fetchBroadcastedSize, if_neg (by simp [h1, h2])]
    rw [he, exceptMapErr, exceptBindErr]
    exact fun h => by cases h
  · simp +decide [TensorMeta.add, TensorMeta.broadcast, TensorMeta.fetchBroadcastedSize,
      TensorMeta.bcRev, TensorMeta.bcDim, TensorMeta.zeros, TensorMeta.broadcastLoop,
      TensorMeta.incIndices, TensorMeta.incIndicesRev, TensorMeta.getIndex,
      TensorMeta.fetchStride, exceptBindOk, exceptBindErr, exceptMapOk, exceptMapErr]
    norm_num

/-- C4 witness at the concrete shape pair `[3,1]` and `[1,2]` with addition. -/
theorem C4_broadcast_correctness_witness :
    (specBroadcastable [3, 1] [1, 2] →
      ∃ t, TensorMeta.broadcast ⟨[1, 2, 3], [3, 1]⟩ ⟨[10, 20], [1, 2]⟩ (· + ·) = .ok t ∧
        t.tensorSize = specMaxShape [3, 1] [1, 2] ∧
        t.rawData.length = (specMaxShape [3, 1] [1, 2]).prod) ∧
    (¬ specBroadcastable [3, 1] [1, 2] →
      ∀ t, TensorMeta.broadcast ⟨[1, 2, 3], [3, 1]⟩ ⟨[10, 20], [1, 2]⟩ (· + ·) ≠ .ok t) ∧
    TensorMeta.add ⟨[1, 2, 3], [3, 1]⟩ ⟨[10, 20], [1, 2]⟩ =
      .ok ⟨[11, 21, 12, 22, 13, 23], [3, 2]⟩ :=
  C4_broadcast_correctness [3, 1] [1, 2] [1, 2, 3] [10, 20] (· + ·)
    (by decide) (by decide) (by decide) (by decide)

/-! ## Matmul (C5) -/

/-- `List.set` away from the read position leaves `getD` unchanged. -/
theorem getD_set_ne (l : List ℚ) (i p : Nat) (v : ℚ) (h : i ≠ p) :
    (l.set i v).getD p 0 = l.getD p 0 := by
  rw [List.getD_eq_getElem?_getD, List.getD_eq_getElem?_getD, List.getElem?_set_ne h]

/-- `List.set` at an in-bounds position is read back by `getD`. -/
theorem getD_set_self (l : List ℚ) (i : Nat) (v : ℚ) (h : i < l.length) :
    (l.set i v).getD i 0 = v := by
  rw [List.getD_eq_getElem?_getD, List.getElem?_set_eq_of_lt v h]
  rfl

/-- `writeBlock` preserves the buffer length. -/
theorem writeBlock_length (off : Nat) (f : Nat → ℚ) :
    ∀ (n : Nat) (l : List ℚ), (TensorMeta.writeBlock off n f l).length = l.length := by
  intro n
  induction n with
  | zero => intro l; rfl
  | succ m ih =>
    intro l
    rw [TensorMeta.writeBlock, List.range_succ, List.foldl_append, List.foldl_cons,
      List.foldl_nil, List.length_set]
    exact ih l

/-- `writeBlock` leaves positions outside `[off, off + n)` untouched. -/
theorem writeBlock_getD_untouched (off : Nat) (f : Nat → ℚ) :
    ∀ (n : Nat) (l : List ℚ) (p : Nat), p < off ∨ off + n ≤ p →
      (TensorMeta.writeBlock off n f l).getD p 0 = l.getD p 0 := by
  intro n
  induction n with
  | zero => intro l p _; rfl
  | succ m ih =>
    intro l p hp
    rw [TensorMeta.writeBlock, List.range_succ, List.foldl_append, List.foldl_cons,
      List.foldl_nil]
    rw [getD_set_ne _ _ _ _ (by omega)]
    exact ih l p (by omega)

/-- `writeBlock` writes `f m` at position `off + m` for `m < n` (buffer large enough). -/
theorem writeBlock_getD (off : Nat) (f : Nat → ℚ) :
    ∀ (n : Nat) (l : List ℚ) (m : Nat), m < n → off + n ≤ l.length →
      (TensorMeta.writeBlock off n f l).getD (off + m) 0 = f m := by
  intro n
  induction n with
  | zero => intro l m hm _; omega
  | succ q ih =>
    intro l m hm hlen
    rw [TensorMeta.writeBlock, List.range_succ, List.foldl_append, List.foldl_cons,
      List.foldl_nil]
    by_cases hmq : m = q
    · subst hmq
      refine getD_set_self _ _ _ ?_
      show off + m < (TensorMeta.writeBlock off m f l).length
      rw [writeBlock_length]
      omega
    · rw [getD_set_ne _ _ _ _ (by omega)]
      exact ih l m (by omega) (by omega)

/-- Flattened row-major index bound. -/
theorem mul_index_lt {i j M N : Nat} (hi : i < M) (hj : j < N) : i * N + j < M * N := by
  calc i * N + j < i * N + N := Nat.add_lt_add_left hj _
  _ = (i + 1) * N := (Nat.succ_mul i N).symm
  _ ≤ M * N := Nat.mul_le_mul_right N hi

/-- `gemmEntry` at the flattened position `i*N + j` is the `(i,j)` contraction. -/
theorem gemmEntry_at (A B : List ℚ) (offA offB K N i j : Nat) (hN : 0 < N) (hj : j < N) :
    TensorMeta.gemmEntry A B offA offB K N (i * N + j) =
      ((List.range K).map
        (fun k => A.getD (offA + i * K + k) 0 * B.getD (offB + k * N + j) 0)).sum := by
  rw [TensorMeta.gemmEntry]
  have hdiv : (i * N + j) / N = i := by
    rw [Nat.add_comm, Nat.add_mul_div_right _ _ hN, Nat.div_eq_of_lt hj, Nat.zero_add]
  have hmod : (i * N + j) % N = j := by
    rw [Nat.add_comm, Nat.add_mul_mod_self_right, Nat.mod_eq_of_lt hj]
  rw [hdiv, hmod]

/-- Left-operand batch offset in the `(B,M,K) x (1,K,N)` loop:
batch `t` starts at `t * (M*K)`. -/
theorem gmbi_left (B M K t : Nat) (ht : t < B) :
    TensorMeta.getMatmulBatchIndex [B, M, K] (TensorMeta.fetchStride [B, M, K]) [t]
      = t * (M * K) := by
  by_cases hB : B = 1
  · subst hB
    have ht0 : t = 0 := by omega
    subst ht0
    simp [TensorMeta.getMatmulBatchIndex, TensorMeta.fetchStride, List.range_succ]
  · simp [TensorMeta.getMatmulBatchIndex, TensorMeta.fetchStride, List.range_succ, hB]

/-- Right-operand batch offset: a leading batch dimension of size 1 is never
advanced (this is the broadcast of the right operand across the batch axis). -/
theorem gmbi_right (K N : Nat) (indices : List Nat) :
    TensorMeta.getMatmulBatchIndex [1, K, N] (TensorMeta.fetchStride [1, K, N]) indices
      = 0 := by
  simp [TensorMeta.getMatmulBatchIndex, List.range_succ]

/-- Odometer step over a single batch axis. -/
theorem incIndices_single (t B : Nat) :
    TensorMeta.incIndices [t] [B] = if t + 1 < B then [t + 1] else [0] := by
  by_cases h : t + 1 < B <;>
    simp [TensorMeta.incIndices, TensorMeta.incIndicesRev, h]

/-- The batch loop of `matmulBroadcast` on `(B,M,K) x (1,K,N)`: starting at batch
`t` with `t + steps = B`, it fills every remaining output block with the GEMM of
the corresponding left batch against the (broadcast) right operand, leaving
earlier positions untouched. -/
theorem mmLoop_spec (Araw Braw : List ℚ) (B M K N : Nat) :
    ∀ (steps t : Nat) (out : List ℚ), t + steps = B → out.length = B * (M * N) →
      ((TensorMeta.mmLoop Araw Braw [B, M, K] [1, K, N]
          (TensorMeta.fetchStride [B, M, K]) (TensorMeta.fetchStride [1, K, N])
          [B] M K N steps t [t] out).length = out.length) ∧
      (∀ p, p < t * (M * N) →
        (TensorMeta.mmLoop Araw Braw [B, M, K] [1, K, N]
          (TensorMeta.fetchStride [B, M, K]) (TensorMeta.fetchStride [1, K, N])
          [B] M K N steps t [t] out).getD p 0 = out.getD p 0) ∧
      (∀ b mn, t ≤ b → b < B → mn < M * N →
        (TensorMeta.mmLoop Araw Braw [B, M, K] [1, K, N]
          (TensorMeta.fetchStride [B, M, K]) (TensorMeta.fetchStride [1, K, N])
          [B] M K N steps t [t] out).getD (b * (M * N) + mn) 0 =
          TensorMeta.gemmEntry Araw Braw (b * (M * K)) 0 K N mn) := by
  intro steps
  induction steps with
  | zero =>
    intro t out ht _
    refine ⟨rfl, fun p _ => rfl, fun b mn hb hbB _ => ?_⟩
    omega
  | succ s ih =>
    intro t out ht hlen
    have htB : t < B := by omega
    have hblock : (t + 1) * (M * N) ≤ out.length := by
      rw [hlen]
      exact Nat.mul_le_mul_right _ htB
    have hsucc : (t + 1) * (M * N) = t * (M * N) + M * N := Nat.succ_mul ..
    rw [TensorMeta.mmLoop, gmbi_left B M K t htB, gmbi_right, incIndices_single]
    set out1 := TensorMeta.matmulAtomic Araw Braw out (t * (M * K)) 0 (t * (M * N)) M K N
      with hout1
    have hlen1 : out1.length = out.length := writeBlock_length ..
    have huntouched1 : ∀ p, p < t * (M * N) → out1.getD p 0 = out.getD p 0 := by
      intro p hp
      exact writeBlock_getD_untouched _ _ _ _ _ (Or.inl hp)
    have hblock1 : ∀ mn, mn < M * N →
        out1.getD (t * (M * N) + mn) 0 =
          TensorMeta.gemmEntry Araw Braw (t * (M * K)) 0 K N mn := by
      intro mn hmn
      refine writeBlock_getD _ _ _ _ _ hmn ?_
      omega
    rcases Nat.eq_zero_or_pos s with hs | hs
    · subst hs
      have htB1 : ¬ (t + 1 < B) := by omega
      rw [if_neg htB1]
      rw [TensorMeta.mmLoop]
      refine ⟨by rw [hlen1], huntouched1, fun b mn hb hbB hmn => ?_⟩
      have hbt : b = t := by omega
      subst hbt
      exact hblock1 mn hmn
    · have htB1 : t + 1 < B := by omega
      rw [if_pos htB1]
      obtain ⟨ihlen, ihun, ihblk⟩ := ih (t + 1) out1 (by omega) (by rw [hlen1, hlen])
      refine ⟨by rw [ihlen, hlen1], ?_, ?_⟩
      · intro p hp
        rw [ihun p (by omega), huntouched1 p hp]
      · intro b mn hb hbB hmn
        by_cases hbt : b = t
        · subst hbt
          rw [ihun (b * (M * N) + mn) (by omega), hblock1 mn hmn]
        · exact ihblk b mn (by omega) hbB hmn

/-- A positive batch prefix `[b]` broadcasts against the trivial prefix `[1]`. -/
theorem fbs_singleton (b : Nat) (hb : 0 < b) :
    TensorMeta.fetchBroadcastedSize [b] [1] = .ok [b] := by
  have hd : TensorMeta.bcDim b 1 = .ok b := by
    by_cases h1 : b = 1
    · subst h1
      rw [TensorMeta.bcDim, if_neg (by omega), if_pos rfl]
    · rw [TensorMeta.bcDim, if_neg (by omega), if_neg h1, if_neg h1, if_pos rfl]
  rw [TensorMeta.fetchBroadcastedSize, if_neg (by simp)]
  simp only [List.reverse_cons, List.reverse_nil, List.nil_append]
  rw [TensorMeta.bcRev, hd, exceptBindOk, TensorMeta.bcRev, exceptBindOk]
  rfl

/-- `validateMatmul` accepts `(B,M,K) x (1,K,N)` for positive `B`. -/
theorem validate_ok (Araw Braw : List ℚ) (B M K N : Nat) (hB : 0 < B) :
    TensorMeta.validateMatmul ⟨Araw, [B, M, K]⟩ ⟨Braw, [1, K, N]⟩ = true := by
  simp +decide [TensorMeta.validateMatmul, TensorMeta.ndim, TensorMeta.exceptOk,
    fbs_singleton B hB]

/-- `fetchMatmulSize` on `(B,M,K) x (1,K,N)` is `[B,M,N]`. -/
theorem fetchMatmulSize_ok (Araw Braw : List ℚ) (B M K N : Nat) (hB : 0 < B) :
    TensorMeta.fetchMatmulSize ⟨Araw, [B, M, K]⟩ ⟨Braw, [1, K, N]⟩ = .ok [B, M, N] := by
  rw [TensorMeta.fetchMatmulSize]
  simp +decide [validate_ok Araw Braw B M K N hB, fbs_singleton B hB,
    exceptBindOk, exceptPure]

/-- `matmulBroadcast` on `(B,M,K) x (1,K,N)` runs the batch loop on shape
`[B,M,N]` from a zero buffer. -/
theorem matmulBroadcast_eq (Araw Braw : List ℚ) (B M K N : Nat) (hB : 0 < B) :
    TensorMeta.matmulBroadcast ⟨Araw, [B, M, K]⟩ ⟨Braw, [1, K, N]⟩ =
      .ok ⟨TensorMeta.mmLoop Araw Braw [B, M, K] [1, K, N]
        (TensorMeta.fetchStride [B, M, K]) (TensorMeta.fetchStride [1, K, N])
        [B] M K N B 0 [0] (List.replicate (B * (M * N)) 0), [B, M, N]⟩ := by
  rw [TensorMeta.matmulBroadcast, fetchMatmulSize_ok Araw Braw B M K N hB, exceptBindOk]
  simp [TensorMeta.zeros]

/-- Core matmul lemma: `matmulBroadcast` on `(B,M,K) x (1,K,N)` produces shape
`[B,M,N]` whose entry `(b,i,j)` contracts left batch `b` against the single
(broadcast across the batch axis) right operand. -/
theorem matmulBroadcast_batched (Araw Braw : List ℚ) (B M K N : Nat)
    (hB : 0 < B) (hN : 0 < N) :
    ∃ raw, TensorMeta.matmulBroadcast ⟨Araw, [B, M, K]⟩ ⟨Braw, [1, K, N]⟩ =
        .ok ⟨raw, [B, M, N]⟩ ∧
      raw.length = B * (M * N) ∧
      ∀ b i j, b < B → i < M → j < N →
        raw.getD (b * (M * N) + (i * N + j)) 0 =
          ((List.range K).map
            (fun k => Araw.getD (b * (M * K) + i * K + k) 0 *
                      Braw.getD (k * N + j) 0)).sum := by
  obtain ⟨hlen, _, hblk⟩ := mmLoop_spec Araw Braw B M K N B 0
    (List.replicate (B * (M * N)) 0) (by omega) (by simp)
  refine ⟨_, matmulBroadcast_eq Araw Braw B M K N hB, ?_, ?_⟩
  · rw [hlen, List.length_replicate]
  · intro b i j hb hi hj
    rw [hblk b (i * N + j) (Nat.zero_le b) hb (mul_index_lt hi hj)]
    rw [gemmEntry_at Araw Braw (b * (M * K)) 0 K N i j hN hj]
    refine congrArg _ (List.map_congr_left ?_)
    intro k _
    rw [Nat.zero_add]

/-- `(M,K) x (K,N)` via `matmul`: the source unsqueezes both operands, runs the
batched multiply with a single trivial batch, and squeezes the result back. -/
theorem matmul_2x2 (A Bm : List ℚ) (M K N : Nat) (hN : 0 < N)
    (hA : A.length = M * K) (hBm : Bm.length = K * N) :
    ∃ t, TensorMeta.matmul ⟨A, [M, K]⟩ ⟨Bm, [K, N]⟩ = .ok t ∧
      t.tensorSize = [M, N] ∧ t.rawData.length = M * N ∧
      ∀ i j, i < M → j < N →
        t.rawData.getD (i * N + j) 0 =
          ((List.range K).map
            (fun k => A.getD (i * K + k) 0 * Bm.getD (k * N + j) 0)).sum := by
  obtain ⟨raw, hmb, hlen, hblk⟩ := matmulBroadcast_batched A Bm 1 M K N one_pos hN
  refine ⟨⟨raw, [M, N]⟩, ?_, rfl, by simpa using hlen, ?_⟩
  · rw [TensorMeta.matmul]
    simp +decide [TensorMeta.matmulGo, TensorMeta.validateMatmul, TensorMeta.ndim,
      TensorMeta.unsqueeze, TensorMeta.make, TensorMeta.squeezeDims, TensorMeta.sortDesc,
      TensorMeta.insertDesc, TensorMeta.exceptOk, fbs_singleton 1 one_pos, hA, hBm, hmb,
      hlen, exceptBindOk, exceptBindErr, exceptPure, exceptThrow]
  · intro i j hi hj
    have h0 := hblk 0 i j one_pos hi hj
    simpa using h0

/-- `(K,) x (K,)` via `matmul` is the scalar dot product of shape `[1]`. -/
theorem matmul_dot (v w : List ℚ) (K : Nat) (hv : v.length = K) (hw : w.length = K) :
    TensorMeta.matmul ⟨v, [K]⟩ ⟨w, [K]⟩ =
      .ok ⟨[((List.range K).map (fun k => v.getD k 0 * w.getD k 0)).sum], [1]⟩ := by
  obtain ⟨raw, hmb, hlen, hblk⟩ := matmulBroadcast_batched v w 1 1 K 1 one_pos one_pos
  have hl : raw.length = 1 := by simpa using hlen
  have hraw : raw = [((List.range K).map (fun k => v.getD k 0 * w.getD k 0)).sum] := by
    have h0 := hblk 0 0 0 one_pos one_pos one_pos
    simp at h0
    cases raw with
    | nil => simp at hl
    | cons a as =>
      cases as with
      | nil =>
        simp at h0
        rw [h0]
        simp [List.getD]
      | cons b bs => simp at hl
  rw [TensorMeta.matmul]
  simp +decide [TensorMeta.matmulGo, TensorMeta.validateMatmul, TensorMeta.ndim,
    TensorMeta.unsqueeze, TensorMeta.make, TensorMeta.squeezeDims, TensorMeta.sortDesc,
    TensorMeta.insertDesc, TensorMeta.exceptOk, fbs_singleton 1 one_pos, hv, hw, hmb,
    hl, hraw, exceptBindOk, exceptBindErr, exceptPure, exceptThrow]

/-- `(B,M,K) x (K,N)` via `matmul`: the right operand is unsqueezed to a trivial
batch and broadcast across the `B` batches of the left operand. -/
theorem matmul_batched (C Bm : List ℚ) (B M K N : Nat) (hB : 0 < B) (hN : 0 < N)
    (hC : C.length = B * (M * K)) (hBm : Bm.length = K * N) :
    ∃ t, TensorMeta.matmul ⟨C, [B, M, K]⟩ ⟨Bm, [K, N]⟩ = .ok t ∧
      t.tensorSize = [B, M, N] ∧ t.rawData.length = B * (M * N) ∧
      ∀ b i j, b < B → i < M → j < N →
        t.rawData.getD (b * (M * N) + (i * N + j)) 0 =
          ((List.range K).map
            (fun k => C.getD (b * (M * K) + i * K + k) 0 *
                      Bm.getD (k * N + j) 0)).sum := by
  obtain ⟨raw, hmb, hlen, hblk⟩ := matmulBroadcast_batched C Bm B M K N hB hN
  refine ⟨⟨raw, [B, M, N]⟩, ?_, rfl, hlen, hblk⟩
  rw [TensorMeta.matmul]
  simp +decide [TensorMeta.matmulGo, TensorMeta.validateMatmul, TensorMeta.ndim,
    TensorMeta.unsqueeze, TensorMeta.make, TensorMeta.exceptOk, fbs_singleton B hB,
    hC, hBm, hmb, exceptBindOk, exceptBindErr, exceptPure, exceptThrow]

/-- A failed `validateMatmul` makes `matmul` throw before any output exists. -/
theorem matmul_invalid (d1 d2 : TensorMeta)
    (h : TensorMeta.validateMatmul d1 d2 = false) :
    ∀ t, TensorMeta.matmul d1 d2 ≠ .ok t := by
  intro t hc
  rw [TensorMeta.matmul] at hc
  simp [TensorMeta.matmulGo, h, exceptThrow, exceptBindErr] at hc

/-- A contraction-size mismatch `(M,K) x (K2,N)`, `K2 ≠ K`, fails validation. -/
theorem validate_K_mismatch (A r : List ℚ) (M K K2 N : Nat) (h : K2 ≠ K) :
    TensorMeta.validateMatmul ⟨A, [M, K]⟩ ⟨r, [K2, N]⟩ = false := by
  simp +decide [TensorMeta.validateMatmul, TensorMeta.ndim]
  omega

/-- Non-broadcastable batch prefixes `[B]` vs `[B2]` (both above 1, different)
fail validation even when the contraction sizes agree. -/
theorem validate_batch_mismatch (Cr r : List ℚ) (B B2 M K N : Nat)
    (hB : 1 < B) (hB2 : 1 < B2) (hne : B ≠ B2) :
    TensorMeta.validateMatmul ⟨Cr, [B, M, K]⟩ ⟨r, [B2, K, N]⟩ = false := by
  obtain ⟨e, he⟩ := bcDim_err B B2 hne (by omega) (by omega)
  have hfbs : TensorMeta.fetchBroadcastedSize [B] [B2] = .error e := by
    rw [TensorMeta.fetchBroadcastedSize, if_neg (by simp)]
    simp only [List.reverse_cons, List.reverse_nil, List.nil_append]
    rw [TensorMeta.bcRev, he, exceptBindErr, exceptMapErr]
  simp +decide [TensorMeta.validateMatmul, TensorMeta.ndim, TensorMeta.exceptOk, hfbs]

/-- C5: the matmul shape table.  For all conforming inputs:
`(M,K) x (K,N) -> (M,N)` with the standard row-major contraction over `K`;
`(K,) x (K,) ->` the scalar dot product (shape `[1]`);
`(B,M,K) x (K,N) -> (B,M,N)` with the right operand broadcast across the batch
axis.  When the contraction sizes do not match, or the batch prefixes are not
broadcastable, `matmul` fails with the shape-mismatch error before producing
any output. -/
theorem C5_matmul_shape_table (M K N B : Nat) (hM : 0 < M) (hK : 0 < K) (hN : 0 < N)
    (hB : 0 < B) (A Bm v w C : List ℚ)
    (hA : A.length = M * K) (hBm : Bm.length = K * N)
    (hv : v.length = K) (hw : w.length = K) (hC : C.length = B * (M * K)) :
    (∃ t, TensorMeta.matmul ⟨A, [M, K]⟩ ⟨Bm, [K, N]⟩ = .ok t ∧
        t.tensorSize = [M, N] ∧ t.rawData.length = M * N ∧
        ∀ i j, i < M → j < N →
          t.rawData.getD (i * N + j) 0 =
            ((List.range K).map
              (fun k => A.getD (i * K + k) 0 * Bm.getD (k * N + j) 0)).sum) ∧
    (TensorMeta.matmul ⟨v, [K]⟩ ⟨w, [K]⟩ =
        .ok ⟨[((List.range K).map (fun k => v.getD k 0 * w.getD k 0)).sum], [1]⟩) ∧
    (∃ t, TensorMeta.matmul ⟨C, [B, M, K]⟩ ⟨Bm, [K, N]⟩ = .ok t ∧
        t.tensorSize = [B, M, N] ∧ t.rawData.length = B * (M * N) ∧
        ∀ b i j, b < B → i < M → j < N →
          t.rawData.getD (b * (M * N) + (i * N + j)) 0 =
            ((List.range K).map
              (fun k => C.getD (b * (M * K) + i * K + k) 0 *
                        Bm.getD (k * N + j) 0)).sum) ∧
    (∀ K2 r, K2 ≠ K →
      ∀ t, TensorMeta.matmul ⟨A, [M, K]⟩ ⟨r, [K2, N]⟩ ≠ .ok t) ∧
    (∀ B2 r, 1 < B → 1 < B2 → B ≠ B2 →
      ∀ t, TensorMeta.matmul ⟨C, [B, M, K]⟩ ⟨r, [B2, K, N]⟩ ≠ .ok t) := by
  refine ⟨matmul_2x2 A Bm M K N hN hA hBm, matmul_dot v w K hv hw,
    matmul_batched C Bm B M K N hB hN hC hBm, ?_, ?_⟩
  · intro K2 r hne
    exact matmul_invalid _ _ (validate_K_mismatch A r M K K2 N hne)
  · intro B2 r h1 h2 hne
    exact matmul_invalid _ _ (validate_batch_mismatch C r B B2 M K N h1 h2 hne)

/-- C5 witness at `M = N = K = B = 2` with concrete data:
`[[1,2],[3,4]] x [[5,6],[7,8]]`, the dot product `[1,2]·[3,4]`, and the batch
`[[[1,2],[3,4]],[[5,6],[7,8]]] x [[5,6],[7,8]]`. -/
theorem C5_matmul_shape_table_witness :
    (∃ t, TensorMeta.matmul ⟨[1, 2, 3, 4], [2, 2]⟩ ⟨[5, 6, 7, 8], [2, 2]⟩ = .ok t ∧
        t.tensorSize = [2, 2] ∧ t.rawData.length = 2 * 2 ∧
        ∀ i j, i < 2 → j < 2 →
          t.rawData.getD (i * 2 + j) 0 =
            ((List.range 2).map
              (fun k => ([1, 2, 3, 4] : List ℚ).getD (i * 2 + k) 0 *
                        ([5, 6, 7, 8] : List ℚ).getD (k * 2 + j) 0)).sum) ∧
    (TensorMeta.matmul ⟨[1, 2], [2]⟩ ⟨[3, 4], [2]⟩ =
        .ok ⟨[((List.range 2).map
          (fun k => ([1, 2] : List ℚ).getD k 0 * ([3, 4] : List ℚ).getD k 0)).sum], [1]⟩) ∧
    (∃ t, TensorMeta.matmul ⟨[1, 2, 3, 4, 5, 6, 7, 8], [2, 2, 2]⟩
          ⟨[5, 6, 7, 8], [2, 2]⟩ = .ok t ∧
        t.tensorSize = [2, 2, 2] ∧ t.rawData.length = 2 * (2 * 2) ∧
        ∀ b i j, b < 2 → i < 2 → j < 2 →
          t.rawData.getD (b * (2 * 2) + (i * 2 + j)) 0 =
            ((List.range 2).map
              (fun k => ([1, 2, 3, 4, 5, 6, 7, 8] : List ℚ).getD (b * (2 * 2) + i * 2 + k) 0 *
                        ([5, 6, 7, 8] : List ℚ).getD (k * 2 + j) 0)).sum) ∧
    (∀ K2 r, K2 ≠ 2 →
      ∀ t, TensorMeta.matmul ⟨[1, 2, 3, 4], [2, 2]⟩ ⟨r, [K2, 2]⟩ ≠ .ok t) ∧
    (∀ B2 r, 1 < 2 → 1 < B2 → 2 ≠ B2 →
      ∀ t, TensorMeta.matmul ⟨[1, 2, 3, 4, 5, 6, 7, 8], [2, 2, 2]⟩
        ⟨r, [B2, 2, 2]⟩ ≠ .ok t) :=
  C5_matmul_shape_table 2 2 2 2 (by decide) (by decide) (by decide) (by decide)
    [1, 2, 3, 4] [5, 6, 7, 8] [1, 2] [3, 4] [1, 2, 3, 4, 5, 6, 7, 8]
    (by decide) (by decide) (by decide) (by decide) (by decide)
